import Mathlib

/-!
Verification development for the `KintoneManager` Google-Apps-Script client
(`src/KintoneManager.js`).  The class builds HTTP requests (URL, method,
headers, body) against the kintone REST API and hands them to the host
transport `UrlFetchApp.fetch`.

Shallow embedding conventions:
* JS strings are Lean `String` (a structure holding a `List Char`); raw byte
  payloads are modelled as `List Char` (one char per byte).
* JS numbers that the source interpolates into strings (`app.appid`, guest
  ids, array indices, record ids) are `Nat`, printed by `natToString`, the
  usual decimal rendering.
* `undefined`/`null`/absent values are `Option.none`; JS truthiness of a
  string-or-null value is `jsTruthy` (`none` and `""` are falsy).
* `String.prototype.replace(/@N/g, repl)` with a literal pattern is
  `jsReplaceAll` (global, left-to-right, the replacement is not rescanned;
  none of the replacement strings used by the source contain `$`, so JS
  `$`-substitution in the replacement never fires).
* A thrown JS exception is `Except.error`: `RequestError.typeError` for the
  dereference of a missing registry entry, `RequestError.jsError msg` for
  `throw new Error(msg)`.  An operation that returns `Except.error` never
  produced a `Request`, i.e. `UrlFetchApp.fetch` was never invoked.
* `Utilities.base64Encode` is `base64Encode` (standard base64 of the UTF-8
  bytes).  `encodeURIComponent` is `jsEncodeURIComponent`.
-/

/-- Decimal digit character (0–9); total with a junk default. -/
def digitChar : Nat → Char
  | 0 => '0' | 1 => '1' | 2 => '2' | 3 => '3' | 4 => '4'
  | 5 => '5' | 6 => '6' | 7 => '7' | 8 => '8' | 9 => '9'
  | _ => 'X'

/-- Fuel-driven decimal digit list of a natural number (most significant
first).  `fuel` bounds the recursion depth; `n + 1` is always enough. -/
def natDigitsF : Nat → Nat → List Char
  | 0, _ => []
  | fuel + 1, n =>
    if n < 10 then [digitChar n]
    else natDigitsF fuel (n / 10) ++ [digitChar (n % 10)]

/-- Decimal rendering of a `Nat`, as JS renders a nonnegative integer. -/
def natToString (n : Nat) : String := ⟨natDigitsF (n + 1) n⟩

/-- JS truthiness of a string-valued field that may be `null`/`undefined`:
`none` and the empty string are falsy. -/
def jsTruthy : Option String → Bool
  | none => false
  | some s => !(s == "")

/-- Boolean prefix test driven by the pattern (so that an exhausted pattern
is accepted without inspecting the rest of the subject). -/
def isPre : List Char → List Char → Bool
  | [], _ => true
  | a :: as, l =>
    match l with
    | [] => false
    | b :: bs => a == b && isPre as bs

/-- Split a character list at the first occurrence of `pat`: returns the part
before the occurrence and the part after it, or `none` when `pat` does not
occur. -/
def splitFirst (pat : List Char) : List Char → Option (List Char × List Char)
  | [] => none
  | c :: rest =>
    if isPre pat (c :: rest) then some ([], (c :: rest).drop pat.length)
    else (splitFirst pat rest).map (fun p => (c :: p.1, p.2))

/-- Fuel-driven global replace: replaces every occurrence of `pat`,
left to right, never rescanning a replacement (JS
`String.prototype.replace` with a global literal pattern).  `fuel` at least
the length of the subject is always enough. -/
def repAll (pat repl : List Char) : Nat → List Char → List Char
  | _, [] => []
  | 0, s => s
  | fuel + 1, c :: rest =>
    if isPre pat (c :: rest) ∧ pat ≠ [] then
      repl ++ repAll pat repl fuel ((c :: rest).drop pat.length)
    else c :: repAll pat repl fuel rest

/-- JS `s.replace(/pat/g, repl)` for a literal pattern `pat` containing no
regex metacharacters and a replacement containing no `$`. -/
def jsReplaceAll (s pat repl : String) : String :=
  ⟨repAll pat.data repl.data s.data.length s.data⟩

/-- UTF-8 bytes of one scalar value. -/
def utf8Bytes (c : Char) : List Nat :=
  if c.toNat < 0x80 then [c.toNat]
  else if c.toNat < 0x800 then [0xC0 + c.toNat / 64, 0x80 + c.toNat % 64]
  else if c.toNat < 0x10000 then
    [0xE0 + c.toNat / 4096, 0x80 + (c.toNat / 64) % 64, 0x80 + c.toNat % 64]
  else
    [0xF0 + c.toNat / 262144, 0x80 + (c.toNat / 4096) % 64, 0x80 + (c.toNat / 64) % 64,
     0x80 + c.toNat % 64]

/-- UTF-8 byte sequence of a string. -/
def strUtf8 (s : String) : List Nat :=
  s.data.foldr (fun c acc => utf8Bytes c ++ acc) []

/-- Standard base64 alphabet. -/
def base64Chars : List Char :=
  "ABCDEFGHIJKLMNOPQRSTUVWXYZabcdefghijklmnopqrstuvwxyz0123456789+/".data

/-- One base64 output character from a 6-bit group. -/
def b64c (n : Nat) : Char := base64Chars.getD n 'X'

/-- Standard base64 of a byte list, with padding. -/
def base64Bytes : List Nat → List Char
  | [] => []
  | [b1] => [b64c (b1 / 4), b64c (b1 % 4 * 16), '=', '=']
  | [b1, b2] => [b64c (b1 / 4), b64c (b1 % 4 * 16 + b2 / 16), b64c (b2 % 16 * 4), '=']
  | b1 :: b2 :: b3 :: rest =>
    b64c (b1 / 4) :: b64c (b1 % 4 * 16 + b2 / 16) :: b64c (b2 % 16 * 4 + b3 / 64)
      :: b64c (b3 % 64) :: base64Bytes rest

/-- `Utilities.base64Encode` of the Google Apps Script host: base64 of the
UTF-8 bytes of the string. -/
def base64Encode (s : String) : String := ⟨base64Bytes (strUtf8 s)⟩

/-- Bytes that `encodeURIComponent` leaves unescaped:
`A–Z a–z 0–9 - _ . ! ~ * ' ( )`. -/
def unreservedByte (b : Nat) : Bool :=
  (65 ≤ b && b ≤ 90) || (97 ≤ b && b ≤ 122) || (48 ≤ b && b ≤ 57) ||
    b == 45 || b == 95 || b == 46 || b == 33 || b == 126 || b == 42 ||
    b == 39 || b == 40 || b == 41

/-- Uppercase hex digit of a 4-bit group. -/
def hexDigitChar : Nat → Char
  | 0 => '0' | 1 => '1' | 2 => '2' | 3 => '3' | 4 => '4' | 5 => '5'
  | 6 => '6' | 7 => '7' | 8 => '8' | 9 => '9' | 10 => 'A' | 11 => 'B'
  | 12 => 'C' | 13 => 'D' | 14 => 'E' | 15 => 'F' | _ => 'X'

/-- Percent-encoding of a byte: kept verbatim when unreserved, `%XX`
otherwise. -/
def encodeByte (b : Nat) : List Char :=
  if unreservedByte b then [Char.ofNat b] else ['%', hexDigitChar (b / 16), hexDigitChar (b % 16)]

/-- Percent-encoding of a byte sequence. -/
def encodeBytesList (bs : List Nat) : List Char :=
  bs.foldr (fun b acc => encodeByte b ++ acc) []

/-- JS `encodeURIComponent`: percent-encodes every UTF-8 byte except the
unreserved set. -/
def jsEncodeURIComponent (s : String) : String :=
  ⟨encodeBytesList (strUtf8 s)⟩

/-- Value of a hex digit character (either case), `none` otherwise. -/
def fromHexDigit (c : Char) : Option Nat :=
  if 48 ≤ c.toNat ∧ c.toNat ≤ 57 then some (c.toNat - 48)
  else if 65 ≤ c.toNat ∧ c.toNat ≤ 70 then some (c.toNat - 55)
  else if 97 ≤ c.toNat ∧ c.toNat ≤ 102 then some (c.toNat - 87)
  else none

/-- Percent-decoding of a character sequence into bytes: `%XX` becomes the
byte `XX`, any other character stands for its own code. -/
def percentDecodeBytes : List Char → Option (List Nat)
  | [] => some []
  | c :: rest =>
    if c = '%' then
      match rest with
      | h :: l :: rest2 =>
        match fromHexDigit h, fromHexDigit l with
        | some hi, some lo => (percentDecodeBytes rest2).map (fun bs => (hi * 16 + lo) :: bs)
        | _, _ => none
      | _ => none
    else (percentDecodeBytes rest).map (fun bs => c.toNat :: bs)

/-- UTF-8 decoding of a byte sequence into scalar values. -/
def utf8Decode : List Nat → Option (List Char)
  | [] => some []
  | b1 :: rest =>
    if b1 < 0x80 then (utf8Decode rest).map (fun cs => Char.ofNat b1 :: cs)
    else
      match rest with
      | [] => none
      | b2 :: rest2 =>
        if 0xC0 ≤ b1 ∧ b1 < 0xE0 then
          if 0x80 ≤ b2 ∧ b2 < 0xC0 then
            (utf8Decode rest2).map (fun cs => Char.ofNat ((b1 - 0xC0) * 64 + (b2 - 0x80)) :: cs)
          else none
        else
          match rest2 with
          | [] => none
          | b3 :: rest3 =>
            if 0xE0 ≤ b1 ∧ b1 < 0xF0 then
              if (0x80 ≤ b2 ∧ b2 < 0xC0) ∧ (0x80 ≤ b3 ∧ b3 < 0xC0) then
                (utf8Decode rest3).map
                  (fun cs =>
                    Char.ofNat ((b1 - 0xE0) * 4096 + (b2 - 0x80) * 64 + (b3 - 0x80)) :: cs)
              else none
            else
              match rest3 with
              | [] => none
              | b4 :: rest4 =>
                if 0xF0 ≤ b1 ∧ b1 < 0xF8 then
                  if (0x80 ≤ b2 ∧ b2 < 0xC0) ∧ (0x80 ≤ b3 ∧ b3 < 0xC0)
                      ∧ (0x80 ≤ b4 ∧ b4 < 0xC0) then
                    (utf8Decode rest4).map
                      (fun cs =>
                        Char.ofNat
                          ((b1 - 0xF0) * 262144 + (b2 - 0x80) * 4096 + (b3 - 0x80) * 64
                            + (b4 - 0x80)) :: cs)
                  else none
                else none

/-- Percent-decoding of a URL component back to a string (percent-decode to
bytes, then UTF-8 decode). -/
def jsDecodeURIComponent (s : String) : Option String :=
  (percentDecodeBytes s.data).bind (fun bs => (utf8Decode bs).map String.mk)

/-- One registry entry of the `apps` object: numeric app id, optional guest
space id, display name, optional API token. -/
structure AppEntry where
  appid : Nat
  guestid : Option Nat
  name : String
  token : Option String
deriving DecidableEq, Repr

/-- The state a `KintoneManager` instance holds after construction:
`authorization` is the session credential (`null` when never assigned),
`basic` the encoded Basic credential (`false`, i.e. `none`, when the fifth
constructor argument was falsy), `apps` the registry (a JS object, modelled
as a key-ordered association list). -/
structure Manager where
  subdomain : String
  authorization : Option String
  basic : Option String
  apps : List (String × AppEntry)
deriving DecidableEq, Repr

/-- A JS value passed as one of the trailing constructor arguments:
`undefined`, a string, or a `{user, pass}` object. -/
inductive JsVal where
  | undefined : JsVal
  | str : String → JsVal
  | obj : JsVal → JsVal → JsVal
deriving DecidableEq, Repr

/-- Template-literal coercion `${v}` of a `JsVal`. -/
def JsVal.tmpl : JsVal → String
  | .undefined => "undefined"
  | .str s => s
  | .obj _ _ => "[object Object]"

/-- JS truthiness of a `JsVal` (`undefined` and `""` are falsy, objects are
truthy). -/
def JsVal.truthy : JsVal → Bool
  | .undefined => false
  | .str s => !(s == "")
  | .obj _ _ => true

/-- Property access `v.user` (objects expose it, anything else yields
`undefined`). -/
def JsVal.userField : JsVal → JsVal
  | .obj u _ => u
  | _ => .undefined

/-- Property access `v.pass`. -/
def JsVal.passField : JsVal → JsVal
  | .obj _ p => p
  | _ => .undefined

/-- The constructor arguments after `(subdomain, apps)`; the constructor
branches on `arguments.length`, i.e. on which of these forms was used. -/
inductive CtorArgs where
  | two : CtorArgs
  | three : JsVal → CtorArgs
  | four : JsVal → JsVal → CtorArgs
  | five : JsVal → JsVal → JsVal → CtorArgs
deriving DecidableEq, Repr

/-- `new KintoneManager(subdomain, apps, user?, pass?, basic?)`:
`this.basic = !!basic && base64(`user:pass`)`; with more than 3 arguments
`this.authorization = base64(`user:pass`)`, with exactly 3 the third
argument is stored verbatim, otherwise `authorization` stays `null`. -/
def construct (subdomain : String) (apps : List (String × AppEntry))
    (args : CtorArgs) : Manager :=
  let basicVal : JsVal := match args with
    | .five _ _ b => b
    | _ => .undefined
  let basic : Option String :=
    if basicVal.truthy then
      some (base64Encode (basicVal.userField.tmpl ++ ":" ++ basicVal.passField.tmpl))
    else none
  let authorization : Option String := match args with
    | .four u p => some (base64Encode (u.tmpl ++ ":" ++ p.tmpl))
    | .five u p _ => some (base64Encode (u.tmpl ++ ":" ++ p.tmpl))
    | .three u =>
      match u with
      | .undefined => none
      | v => some v.tmpl
    | .two => none
  ⟨subdomain, authorization, basic, apps⟩

/-- `this.apps[app_name]`: first binding of the key in the registry object,
`undefined` when absent. -/
def lookupApp (m : Manager) (app_name : String) : Option AppEntry :=
  (m.apps.find? (fun p => p.1 == app_name)).map (fun p => p.2)

/-- `_getEndpoint(guest_id)`: base host is `https://{subdomain}` when the
last four characters of the subdomain are `.com`, else
`https://{subdomain}.cybozu.com`; path is `/k/v1`, or `/k/guest/{id}/v1`
when `guest_id` is not `null`/`undefined`. -/
def _getEndpoint (subdomain : String) (guest_id : Option Nat) : String :=
  let endpoint : String :=
    if (⟨subdomain.data.drop (subdomain.data.length - 4)⟩ : String) = ".com" then
      "https://" ++ subdomain
    else "https://" ++ subdomain ++ ".cybozu.com"
  match guest_id with
  | none => endpoint ++ "/k/v1"
  | some g => endpoint ++ jsReplaceAll "/k/guest/@1/v1" "@1" (natToString g)

/-- A thrown JS exception: `typeError` for a property access on `undefined`
(missing registry entry), `jsError msg` for `throw new Error(msg)`. -/
inductive RequestError where
  | typeError : RequestError
  | jsError : String → RequestError
deriving DecidableEq, Repr

/-- A request body: a JSON text (`JSON.stringify` result) or raw bytes
(modelled one char per byte). -/
inductive Payload where
  | jsonText : String → Payload
  | bytes : List Char → Payload
deriving DecidableEq, Repr

/-- The option object handed to `UrlFetchApp.fetch`; absent fields are
`none`. -/
structure FetchOptions where
  method : String
  contentType : Option String
  headers : List (String × String)
  muteHttpExceptions : Option Bool
  payload : Option Payload
deriving DecidableEq, Repr

/-- One outbound call: the URL and the option object passed to
`UrlFetchApp.fetch`.  An operation whose result is `Except.error` never
built a `Request`, i.e. no fetch was issued. -/
structure Request where
  url : String
  options : FetchOptions
deriving DecidableEq, Repr

/-- `_authorizationHeader({token})`: throws `Error("Authentication Failed")`
when neither `this.authorization` nor the app token is truthy; otherwise
builds the header object in insertion order
`X-Cybozu-Authorization`, `Authorization`, `X-Cybozu-API-Token`. -/
def _authorizationHeader (m : Manager) (token : Option String) :
    Except RequestError (List (String × String)) :=
  if !(jsTruthy m.authorization || jsTruthy token) then
    .error (.jsError "Authentication Failed")
  else
    .ok
      ((match m.authorization with
        | some a => if a == "" then [] else [("X-Cybozu-Authorization", a)]
        | none => []) ++
       (match m.authorization, m.basic with
        | some a, some b => if a == "" ∨ b == "" then [] else [("Authorization", "Basic " ++ b)]
        | _, _ => []) ++
       (match token with
        | some t => if t == "" then [] else [("X-Cybozu-API-Token", t)]
        | none => []))

/-- `_getOption(app)`. -/
def _getOption (m : Manager) (app : AppEntry) : Except RequestError FetchOptions :=
  (_authorizationHeader m app.token).map
    (fun h => ⟨"get", none, h, some true, none⟩)

/-- `_postOption(app, payload)` (the payload argument is the already
stringified JSON body). -/
def _postOption (m : Manager) (app : AppEntry) (payload : String) :
    Except RequestError FetchOptions :=
  (_authorizationHeader m app.token).map
    (fun h => ⟨"post", some "application/json", h, some true, some (.jsonText payload)⟩)

/-- `_putOption(app, payload)`. -/
def _putOption (m : Manager) (app : AppEntry) (payload : String) :
    Except RequestError FetchOptions :=
  (_authorizationHeader m app.token).map
    (fun h => ⟨"put", some "application/json", h, some true, some (.jsonText payload)⟩)

/-- `_deleteOption(app)`. -/
def _deleteOption (m : Manager) (app : AppEntry) : Except RequestError FetchOptions :=
  (_authorizationHeader m app.token).map
    (fun h => ⟨"delete", none, h, some true, none⟩)

/-- `_uploadOption(app, payload, boundary)`: note that, unlike the four
option builders above, no `muteHttpExceptions` field is set. -/
def _uploadOption (m : Manager) (app : AppEntry) (payload : List Char)
    (boundary : String) : Except RequestError FetchOptions :=
  (_authorizationHeader m app.token).map
    (fun h => ⟨"post", some ("multipart/form-data; boundary=" ++ boundary), h, none, some (.bytes payload)⟩)

/-- `JSON.stringify({app: appid, records})`; the caller-supplied `records`
array is modelled by its serialized JSON text. -/
def stringifyAppRecords (appid : Nat) (records : String) : String :=
  "\x7b\"app\":" ++ natToString appid ++ ",\"records\":" ++ records ++ "\x7d"

/-- `create(app_name, records)`. -/
def create (m : Manager) (app_name : String) (records : String) :
    Except RequestError Request :=
  match lookupApp m app_name with
  | none => .error .typeError
  | some app =>
    (_postOption m app (stringifyAppRecords app.appid records)).map
      (fun o => ⟨jsReplaceAll "@1/records.json" "@1" (_getEndpoint m.subdomain app.guestid), o⟩)

/-- `search(app_name, query)`. -/
def search (m : Manager) (app_name : String) (query : String) :
    Except RequestError Request :=
  let q := jsEncodeURIComponent query
  match lookupApp m app_name with
  | none => .error .typeError
  | some app =>
    (_getOption m app).map
      (fun o =>
        ⟨jsReplaceAll
            (jsReplaceAll
              (jsReplaceAll "@1/records.json?app=@2&query=@3" "@1"
                (_getEndpoint m.subdomain app.guestid))
              "@2" (natToString app.appid))
            "@3" q, o⟩)

/-- `update(app_name, records)`. -/
def update (m : Manager) (app_name : String) (records : String) :
    Except RequestError Request :=
  match lookupApp m app_name with
  | none => .error .typeError
  | some app =>
    (_putOption m app (stringifyAppRecords app.appid records)).map
      (fun o => ⟨jsReplaceAll "@1/records.json" "@1" (_getEndpoint m.subdomain app.guestid), o⟩)

/-- The query string `destroy` folds up with `Array.prototype.reduce`:
`app={appid}` followed by one replaced `&ids[@1]=@2` term per record id. -/
def destroyQuery (appid : Nat) (record_ids : List Nat) : String :=
  (record_ids.enum).foldl
    (fun prev p =>
      prev ++ jsReplaceAll (jsReplaceAll "&ids[@1]=@2" "@1" (natToString p.1)) "@2" (natToString p.2))
    ("app=" ++ natToString appid)

/-- `destroy(app_name, record_ids)`. -/
def destroy (m : Manager) (app_name : String) (record_ids : List Nat) :
    Except RequestError Request :=
  match lookupApp m app_name with
  | none => .error .typeError
  | some app =>
    (_deleteOption m app).map
      (fun o =>
        ⟨jsReplaceAll
            (jsReplaceAll "@1/records.json?@2" "@1" (_getEndpoint m.subdomain app.guestid))
            "@2" (destroyQuery app.appid record_ids), o⟩)

/-- The fixed multipart boundary used by `upload`. -/
def uploadBoundary : String := "blob"

/-- The template-literal header text of the single multipart part, exactly as
the source builds it: the first two line breaks are the literal newlines of
the template (LF), the trailing `\r\n\r\n` is explicit. -/
def uploadData (fileName fileMime : String) : String :=
  "--" ++ uploadBoundary ++
    "\nContent-Disposition: form-data; name=\"file\"; filename=\"" ++ fileName ++
    "\"\nContent-Type:" ++ fileMime ++ "\r\n\r\n"

/-- The byte payload `upload` assembles: header-text bytes, then the raw
file bytes, then `\r\n--blob--`. -/
def uploadPayload (fileName fileMime : String) (fileBytes : List Char) : List Char :=
  (uploadData fileName fileMime).data ++ fileBytes ++
    ("\r\n--" ++ uploadBoundary ++ "--").data

/-- `upload(app_name, file_id)`; the Drive file is modelled by its name,
declared MIME type and content bytes.  When the registry entry is missing
the dereference `app.guestid` (inside the first `fetch` argument) throws
before any fetch. -/
def upload (m : Manager) (app_name : String) (fileName fileMime : String)
    (fileBytes : List Char) : Except RequestError Request :=
  match lookupApp m app_name with
  | none => .error .typeError
  | some app =>
    (_uploadOption m app (uploadPayload fileName fileMime fileBytes) uploadBoundary).map
      (fun o => ⟨jsReplaceAll "@1/file.json" "@1" (_getEndpoint m.subdomain app.guestid), o⟩)

/-- The double-quote character (code 34). -/
def dquote : Char := Char.ofNat 34

/-- One part of a parsed multipart/form-data body. -/
structure MPart where
  name : String
  filename : String
  contentType : String
  content : List Char
deriving DecidableEq, Repr

/-- Strip one trailing carriage return from a header line. -/
def stripCR (l : List Char) : List Char :=
  if l.getLast? = some '\r' then l.dropLast else l

/-- Read one header line, terminated by LF with an optional preceding CR
(lenient line endings, as the receiving service accepts bare LF). -/
def readLine (s : List Char) : Option (List Char × List Char) :=
  (splitFirst ['\n'] s).map (fun p => (stripCR p.1, p.2))

/-- Read header lines up to and including the blank line that ends them. -/
def parseHeadersF : Nat → List Char → Option (List (List Char) × List Char)
  | fuel, s =>
    match readLine s with
    | none => none
    | some (line, rest) =>
      if line = [] then some ([], rest)
      else
        match fuel with
        | 0 => none
        | fuel + 1 => (parseHeadersF fuel rest).map (fun p => (line :: p.1, p.2))

/-- Everything after the first occurrence of `pat`. -/
def findAfter (pat s : List Char) : Option (List Char) :=
  (splitFirst pat s).map (fun p => p.2)

/-- Everything before the next double quote. -/
def quotedVal (s : List Char) : Option (List Char) :=
  (splitFirst [dquote] s).map (fun p => p.1)

/-- Build a part from its header lines and content: the
`Content-Disposition` line supplies `name="..."` and `filename="..."`, the
`Content-Type` line supplies the type. -/
def partFromHeaders (hdrs : List (List Char)) (content : List Char) : Option MPart :=
  match hdrs.find? (fun l => isPre "Content-Disposition:".data l) with
  | none => none
  | some dl =>
    match (findAfter ("name=".data ++ [dquote]) dl).bind quotedVal,
        (findAfter ("filename=".data ++ [dquote]) dl).bind quotedVal,
        hdrs.find? (fun l => isPre "Content-Type:".data l) with
    | some nm, some fn, some ctl =>
      some ⟨⟨nm⟩, ⟨fn⟩, ⟨ctl.drop "Content-Type:".data.length⟩, content⟩
    | _, _, _ => none

/-- Parse the parts following a dash-boundary `--{boundary}`: either the
closing `--`, or a line break, the part headers, the content up to the next
`CRLF--{boundary}` delimiter, and the remaining parts. -/
def parsePartsF (dash : List Char) : Nat → List Char → Option (List MPart)
  | fuel, s =>
    if isPre "--".data s then some []
    else
      match fuel with
      | 0 => none
      | fuel + 1 =>
        match readLine s with
        | none => none
        | some (line, rest) =>
          if line = [] then
            match parseHeadersF (rest.length + 1) rest with
            | none => none
            | some (hdrs, body) =>
              match splitFirst ('\r' :: '\n' :: dash) body with
              | none => none
              | some (content, after) =>
                match partFromHeaders hdrs content with
                | none => none
                | some part => (parsePartsF dash fuel after).map (fun ps => part :: ps)
          else none

/-- Parse a multipart/form-data body against a boundary (modelled from the
spec: the round-trip side of the upload contract). -/
def parseMultipart (boundary : String) (body : List Char) : Option (List MPart) :=
  let dash := ("--" ++ boundary).data
  if isPre dash body then parsePartsF dash (body.length + 1) (body.drop dash.length)
  else none

/-- Bridge between the boolean `isPre` and the `<+:` relation. -/
lemma isPre_true : ∀ {l₁ l₂ : List Char}, isPre l₁ l₂ = true ↔ l₁ <+: l₂ := by
  intro l₁
  induction l₁ with
  | nil => intro l₂; simp [isPre]
  | cons a as ih =>
    intro l₂
    cases l₂ with
    | nil => simp [isPre]
    | cons b bs =>
      simp only [isPre, Bool.and_eq_true, beq_iff_eq, ih]
      constructor
      · rintro ⟨rfl, t, rfl⟩
        exact ⟨t, rfl⟩
      · rintro ⟨t, ht⟩
        injection ht with h1 h2
        exact ⟨h1, t, h2⟩

/-- A pattern whose head character does not occur in `a` has no occurrence
starting inside `a` in `a ++ b`. -/
lemma headFree {ch : Char} (p a b : List Char) (ha : ch ∉ a) :
    ∀ i, i < a.length → ¬ (ch :: p) <+: (a ++ b).drop i := by
  induction a generalizing b with
  | nil => intro i hi; simp at hi
  | cons d a' ih =>
    intro i hi
    cases i with
    | zero =>
      intro hpre
      obtain ⟨t, ht⟩ := hpre
      simp only [List.cons_append, List.drop_zero, List.cons_append] at ht
      have : ch = d := by
        have := congrArg (fun l => l.head?) ht
        simpa using this
      exact ha (this ▸ List.mem_cons_self _ _)
    | succ j =>
      have hj : j < a'.length := by simpa using hi
      have := ih b (fun hmem => ha (List.mem_cons_of_mem _ hmem)) j hj
      simpa using this

/-- `splitFirst` finds the first occurrence: when no occurrence starts
inside `a`, splitting `a ++ pat ++ b` returns `(a, b)`. -/
lemma splitFirst_at (pat a b : List Char) (hpat : pat ≠ [])
    (hfree : ∀ i, i < a.length → ¬ pat <+: ((a ++ (pat ++ b)).drop i)) :
    splitFirst pat (a ++ (pat ++ b)) = some (a, b) := by
  induction a with
  | nil =>
    cases pat with
    | nil => exact absurd rfl hpat
    | cons p pt =>
      have hpre : isPre (p :: pt) ((p :: pt) ++ b) = true :=
        isPre_true.mpr ⟨b, rfl⟩
      simp only [List.nil_append, List.cons_append] at hpre ⊢
      simp only [splitFirst, hpre, if_pos rfl]
      simp [List.drop_left (p :: pt)]
  | cons c a' ih =>
    have h0 : ¬ pat <+: (c :: (a' ++ (pat ++ b))) := by
      have := hfree 0 (by simp)
      simpa using this
    have hb : ¬ (isPre pat (c :: (a' ++ (pat ++ b))) = true) := fun h =>
      h0 (isPre_true.mp h)
    have ih' := ih (fun i hi => by
      have := hfree (i + 1) (by simpa using Nat.succ_lt_succ hi)
      simpa using this)
    simp only [List.cons_append, splitFirst, List.append_eq]
    rw [if_neg hb, ih']
    rfl

/-- `repAll` copies a region that contains no occurrence of the pattern and
continues on the rest. -/
lemma repAll_skip (pat repl a b : List Char) (fuel : Nat)
    (hfuel : a.length + b.length ≤ fuel)
    (hfree : ∀ i, i < a.length → ¬ pat <+: ((a ++ b).drop i)) :
    repAll pat repl fuel (a ++ b) = a ++ repAll pat repl (fuel - a.length) b := by
  induction a generalizing fuel with
  | nil => simp
  | cons c a' ih =>
    cases fuel with
    | zero => simp at hfuel
    | succ f =>
      have h0 : ¬ pat <+: (c :: (a' ++ b)) := by
        have := hfree 0 (by simp)
        simpa using this
      have hb : ¬ (isPre pat (c :: (a' ++ b)) = true ∧ pat ≠ []) := fun h =>
        h0 (isPre_true.mp h.1)
      have hfuel' : a'.length + b.length ≤ f := by
        simp only [List.length_cons] at hfuel; omega
      have ih' := ih f hfuel'
        (fun i hi => by
          have := hfree (i + 1) (by simpa using Nat.succ_lt_succ hi)
          simpa using this)
      simp only [List.cons_append, repAll, List.append_eq]
      rw [if_neg hb, ih']
      simp [Nat.succ_sub_one]

/-- Digit characters produced by `digitChar` for digits lie in `'0'..'9'`. -/
lemma digitChar_range : ∀ m, m < 10 → 48 ≤ (digitChar m).toNat ∧ (digitChar m).toNat ≤ 57 := by
  decide

/-- Every character of a `natDigitsF` rendering is a decimal digit. -/
lemma natDigitsF_range : ∀ (fuel n : Nat) (c : Char), c ∈ natDigitsF fuel n →
    48 ≤ c.toNat ∧ c.toNat ≤ 57 := by
  intro fuel
  induction fuel with
  | zero => intro n c hc; simp [natDigitsF] at hc
  | succ f ih =>
    intro n c hc
    unfold natDigitsF at hc
    split at hc
    · next h => rw [List.mem_singleton] at hc; exact hc ▸ digitChar_range n h
    · rcases List.mem_append.mp hc with h | h
      · exact ih _ _ h
      · rw [List.mem_singleton] at h
        exact h ▸ digitChar_range _ (Nat.mod_lt _ (by omega))

/-- Every character of `natToString n` is a decimal digit. -/
lemma natToString_range (n : Nat) (c : Char) (hc : c ∈ (natToString n).data) :
    48 ≤ c.toNat ∧ c.toNat ≤ 57 :=
  natDigitsF_range _ _ _ hc

/-- `'@'` never occurs in a decimal rendering. -/
lemma natToString_no_at (n : Nat) : '@' ∉ (natToString n).data := fun h => by
  have := natToString_range n '@' h
  simp at this

/-- The JS `subdomain.slice(-4) === ".com"` test is exactly the
".com"-suffix test. -/
lemma slice_dotcom (s : String) :
    ((⟨s.data.drop (s.data.length - 4)⟩ : String) = ".com") ↔ ".com".data <:+ s.data := by
  constructor
  · intro h
    have hd : s.data.drop (s.data.length - 4) = ".com".data := congrArg String.data h
    rw [← hd]
    exact List.drop_suffix _ _
  · intro h
    obtain ⟨t, ht⟩ := h
    have hlen : s.data.length = t.length + 4 := by rw [← ht]; simp
    have hd : s.data.drop (s.data.length - 4) = ".com".data := by
      rw [← ht]
      have hl : (t ++ ".com".data).length - 4 = t.length := by simp
      rw [hl]
      exact List.drop_left t _
    exact congrArg String.mk hd

/-- `"@1/records.json".replace(/@1/g, e)`. -/
lemma records_url (e : String) :
    jsReplaceAll "@1/records.json" "@1" e = e ++ "/records.json" := rfl

/-- `"@1/file.json".replace(/@1/g, e)`. -/
lemma file_url (e : String) :
    jsReplaceAll "@1/file.json" "@1" e = e ++ "/file.json" := rfl

/-- `"/k/guest/@1/v1".replace(/@1/g, g)`. -/
lemma guest_url (g : String) :
    jsReplaceAll "/k/guest/@1/v1" "@1" g = "/k/guest/" ++ g ++ "/v1" := rfl

/-- First replacement step of `search`'s URL template. -/
lemma search_url_step1 (e : String) :
    jsReplaceAll "@1/records.json?app=@2&query=@3" "@1" e
      = e ++ "/records.json?app=@2&query=@3" := rfl

/-- First replacement step of `destroy`'s URL template. -/
lemma destroy_url_step1 (e : String) :
    jsReplaceAll "@1/records.json?@2" "@1" e = e ++ "/records.json?@2" := rfl

/-- First replacement step of the per-id term of `destroy`'s query. -/
lemma ids_term_step1 (i : String) :
    jsReplaceAll "&ids[@1]=@2" "@1" i = "&ids[" ++ i ++ "]=@2" := rfl

/-- A character absent from both halves is absent from an append. -/
lemma notMem_append {c : Char} {s t : List Char} (hs : c ∉ s) (ht : c ∉ t) :
    c ∉ s ++ t := fun h => (List.mem_append.mp h).elim hs ht

/-- The endpoint string contains no `'@'` when the subdomain contains
none. -/
lemma endpoint_no_at (sub : String) (g : Option Nat) (hsub : '@' ∉ sub.data) :
    '@' ∉ (_getEndpoint sub g).data := by
  have h1 : '@' ∉ ("https://" ++ sub).data := by
    rw [String.data_append]
    exact notMem_append (by decide) hsub
  have h2 : '@' ∉ ("https://" ++ sub ++ ".cybozu.com").data := by
    rw [String.data_append]
    exact notMem_append h1 (by decide)
  have hbase : '@' ∉ ((if (⟨sub.data.drop (sub.data.length - 4)⟩ : String) = ".com"
      then "https://" ++ sub else "https://" ++ sub ++ ".cybozu.com")).data := by
    split
    · exact h1
    · exact h2
  cases g with
  | none =>
    have he : _getEndpoint sub none
        = (if (⟨sub.data.drop (sub.data.length - 4)⟩ : String) = ".com"
           then "https://" ++ sub else "https://" ++ sub ++ ".cybozu.com") ++ "/k/v1" := rfl
    rw [he, String.data_append]
    exact notMem_append hbase (by decide)
  | some gid =>
    have he : _getEndpoint sub (some gid)
        = (if (⟨sub.data.drop (sub.data.length - 4)⟩ : String) = ".com"
           then "https://" ++ sub else "https://" ++ sub ++ ".cybozu.com")
          ++ ("/k/guest/" ++ natToString gid ++ "/v1") := rfl
    rw [he, String.data_append]
    refine notMem_append hbase ?_
    rw [String.data_append, String.data_append]
    exact notMem_append (notMem_append (by decide) (natToString_no_at gid)) (by decide)

/-- C4: the base host is `https://{subdomain}` exactly when the subdomain
ends in `.com` (else `https://{subdomain}.cybozu.com`), and the path is
`/k/v1` without a guest id and `/k/guest/{guestId}/v1` with one. -/
theorem C4_endpoint_resolution (sub : String) (g : Option Nat) :
    _getEndpoint sub g =
      (if ".com".data <:+ sub.data then "https://" ++ sub
       else "https://" ++ sub ++ ".cybozu.com") ++
      (match g with
       | none => "/k/v1"
       | some gid => "/k/guest/" ++ natToString gid ++ "/v1") := by
  by_cases h : ".com".data <:+ sub.data
  · rw [if_pos h]
    cases g with
    | none =>
      have he : _getEndpoint sub none
          = (if (⟨sub.data.drop (sub.data.length - 4)⟩ : String) = ".com"
             then "https://" ++ sub else "https://" ++ sub ++ ".cybozu.com") ++ "/k/v1" := rfl
      rw [he, if_pos ((slice_dotcom sub).mpr h)]
    | some gid =>
      have he : _getEndpoint sub (some gid)
          = (if (⟨sub.data.drop (sub.data.length - 4)⟩ : String) = ".com"
             then "https://" ++ sub else "https://" ++ sub ++ ".cybozu.com")
            ++ ("/k/guest/" ++ natToString gid ++ "/v1") := rfl
      rw [he, if_pos ((slice_dotcom sub).mpr h)]
  · rw [if_neg h]
    cases g with
    | none =>
      have he : _getEndpoint sub none
          = (if (⟨sub.data.drop (sub.data.length - 4)⟩ : String) = ".com"
             then "https://" ++ sub else "https://" ++ sub ++ ".cybozu.com") ++ "/k/v1" := rfl
      rw [he, if_neg (fun hc => h ((slice_dotcom sub).mp hc))]
    | some gid =>
      have he : _getEndpoint sub (some gid)
          = (if (⟨sub.data.drop (sub.data.length - 4)⟩ : String) = ".com"
             then "https://" ++ sub else "https://" ++ sub ++ ".cybozu.com")
            ++ ("/k/guest/" ++ natToString gid ++ "/v1") := rfl
      rw [he, if_neg (fun hc => h ((slice_dotcom sub).mp hc))]

/-- C6: the 3-argument constructor stores the third argument verbatim as
the session credential; the 4-argument form stores `base64("user:pass")`. -/
theorem C6_constructor_forms (subdomain : String) (apps : List (String × AppEntry))
    (preEncodedAuth user pass : String) :
    (construct subdomain apps (.three (.str preEncodedAuth))).authorization = some preEncodedAuth
    ∧ (construct subdomain apps (.four (.str user) (.str pass))).authorization
        = some (base64Encode (user ++ ":" ++ pass)) :=
  ⟨rfl, rfl⟩

/-- When the session credential is a set (non-empty) string, the header
object starts with `X-Cybozu-Authorization` bound to it. -/
lemma authHeader_cons (m : Manager) (token : Option String) (a : String)
    (ha : m.authorization = some a) (hne : (a == "") = false) :
    ∃ rest, _authorizationHeader m token
      = .ok (("X-Cybozu-Authorization", a) :: rest) := by
  unfold _authorizationHeader
  rw [ha]
  simp only [jsTruthy, hne, Bool.not_false, Bool.true_or, Bool.not_true, Bool.false_eq_true,
    if_false]
  exact ⟨_, rfl⟩

/-- C10: passing five arguments with `user` and `pass` both `undefined`
still selects the 4-plus-argument branch, so the stored session credential
is `base64("undefined:undefined")` and every successfully built header
object carries it as `X-Cybozu-Authorization`. -/
theorem C10_five_args_undefined (subdomain : String) (apps : List (String × AppEntry))
    (basicArg : JsVal) (token : Option String) :
    (construct subdomain apps (.five .undefined .undefined basicArg)).authorization
        = some (base64Encode "undefined:undefined")
    ∧ ∃ rest, _authorizationHeader (construct subdomain apps (.five .undefined .undefined basicArg)) token
        = .ok (("X-Cybozu-Authorization", base64Encode "undefined:undefined") :: rest) :=
  ⟨rfl, authHeader_cons _ token _ rfl (by decide)⟩

/-- A successfully built POST option carries `muteHttpExceptions: true`. -/
lemma postOption_mute (m : Manager) (app : AppEntry) (payload : String) :
    ∀ o, _postOption m app payload = .ok o → o.muteHttpExceptions = some true := by
  intro o ho
  unfold _postOption at ho
  rcases ha : _authorizationHeader m app.token with e | hs <;> rw [ha] at ho <;>
    simp [Except.map] at ho
  rw [← ho]

/-- A successfully built GET option carries `muteHttpExceptions: true`. -/
lemma getOption_mute (m : Manager) (app : AppEntry) :
    ∀ o, _getOption m app = .ok o → o.muteHttpExceptions = some true := by
  intro o ho
  unfold _getOption at ho
  rcases ha : _authorizationHeader m app.token with e | hs <;> rw [ha] at ho <;>
    simp [Except.map] at ho
  rw [← ho]

/-- A successfully built PUT option carries `muteHttpExceptions: true`. -/
lemma putOption_mute (m : Manager) (app : AppEntry) (payload : String) :
    ∀ o, _putOption m app payload = .ok o → o.muteHttpExceptions = some true := by
  intro o ho
  unfold _putOption at ho
  rcases ha : _authorizationHeader m app.token with e | hs <;> rw [ha] at ho <;>
    simp [Except.map] at ho
  rw [← ho]

/-- A successfully built DELETE option carries `muteHttpExceptions: true`. -/
lemma deleteOption_mute (m : Manager) (app : AppEntry) :
    ∀ o, _deleteOption m app = .ok o → o.muteHttpExceptions = some true := by
  intro o ho
  unfold _deleteOption at ho
  rcases ha : _authorizationHeader m app.token with e | hs <;> rw [ha] at ho <;>
    simp [Except.map] at ho
  rw [← ho]

/-- A successfully built upload option leaves `muteHttpExceptions` unset. -/
lemma uploadOption_mute (m : Manager) (app : AppEntry) (payload : List Char)
    (boundary : String) :
    ∀ o, _uploadOption m app payload boundary = .ok o → o.muteHttpExceptions = none := by
  intro o ho
  unfold _uploadOption at ho
  rcases ha : _authorizationHeader m app.token with e | hs <;> rw [ha] at ho <;>
    simp [Except.map] at ho
  rw [← ho]

/-- C8: the request options of `create`, `search`, `update` and `destroy`
set `muteHttpExceptions` to `true`; the options of `upload` do not set the
flag at all. -/
theorem C8_mute_flag (m : Manager) (name records query : String) (ids : List Nat)
    (fn fm : String) (fb : List Char) :
    (∀ req, create m name records = .ok req → req.options.muteHttpExceptions = some true)
    ∧ (∀ req, search m name query = .ok req → req.options.muteHttpExceptions = some true)
    ∧ (∀ req, update m name records = .ok req → req.options.muteHttpExceptions = some true)
    ∧ (∀ req, destroy m name ids = .ok req → req.options.muteHttpExceptions = some true)
    ∧ (∀ req, upload m name fn fm fb = .ok req → req.options.muteHttpExceptions = none) := by
  refine ⟨?_, ?_, ?_, ?_, ?_⟩ <;> intro req hok
  · unfold create at hok
    rcases hl : lookupApp m name with _ | app <;> rw [hl] at hok <;>
      simp only [] at hok
    · exact absurd hok (by simp)
    · rcases ho : _postOption m app (stringifyAppRecords app.appid records) with e | o <;>
        rw [ho] at hok <;> simp [Except.map] at hok
      rw [← hok]
      exact postOption_mute m app _ o ho
  · unfold search at hok
    rcases hl : lookupApp m name with _ | app <;> rw [hl] at hok <;>
      simp only [] at hok
    · exact absurd hok (by simp)
    · rcases ho : _getOption m app with e | o <;>
        rw [ho] at hok <;> simp [Except.map] at hok
      rw [← hok]
      exact getOption_mute m app o ho
  · unfold update at hok
    rcases hl : lookupApp m name with _ | app <;> rw [hl] at hok <;>
      simp only [] at hok
    · exact absurd hok (by simp)
    · rcases ho : _putOption m app (stringifyAppRecords app.appid records) with e | o <;>
        rw [ho] at hok <;> simp [Except.map] at hok
      rw [← hok]
      exact putOption_mute m app _ o ho
  · unfold destroy at hok
    rcases hl : lookupApp m name with _ | app <;> rw [hl] at hok <;>
      simp only [] at hok
    · exact absurd hok (by simp)
    · rcases ho : _deleteOption m app with e | o <;>
        rw [ho] at hok <;> simp [Except.map] at hok
      rw [← hok]
      exact deleteOption_mute m app o ho
  · unfold upload at hok
    rcases hl : lookupApp m name with _ | app <;> rw [hl] at hok <;>
      simp only [] at hok
    · exact absurd hok (by simp)
    · rcases ho : _uploadOption m app (uploadPayload fn fm fb) uploadBoundary with e | o <;>
        rw [ho] at hok <;> simp [Except.map] at hok
      rw [← hok]
      exact uploadOption_mute m app _ _ o ho

/-- C8 witness: a concrete client and app for which all five operations
succeed, with the stated mute flags. -/
theorem C8_mute_flag_witness :
    (∃ req, create ⟨"s", some "A", none, [("a", ⟨1, none, "n", none⟩)]⟩ "a" "[]" = .ok req
      ∧ req.options.muteHttpExceptions = some true)
    ∧ (∃ req, search ⟨"s", some "A", none, [("a", ⟨1, none, "n", none⟩)]⟩ "a" "q" = .ok req
      ∧ req.options.muteHttpExceptions = some true)
    ∧ (∃ req, update ⟨"s", some "A", none, [("a", ⟨1, none, "n", none⟩)]⟩ "a" "[]" = .ok req
      ∧ req.options.muteHttpExceptions = some true)
    ∧ (∃ req, destroy ⟨"s", some "A", none, [("a", ⟨1, none, "n", none⟩)]⟩ "a" [2] = .ok req
      ∧ req.options.muteHttpExceptions = some true)
    ∧ (∃ req, upload ⟨"s", some "A", none, [("a", ⟨1, none, "n", none⟩)]⟩ "a" "f" "m" [] = .ok req
      ∧ req.options.muteHttpExceptions = none) :=
  ⟨⟨_, rfl, (C8_mute_flag ⟨"s", some "A", none, [("a", ⟨1, none, "n", none⟩)]⟩ "a" "[]" "q" [2] "f" "m" []).1 _ rfl⟩,
   ⟨_, rfl, (C8_mute_flag ⟨"s", some "A", none, [("a", ⟨1, none, "n", none⟩)]⟩ "a" "[]" "q" [2] "f" "m" []).2.1 _ rfl⟩,
   ⟨_, rfl, (C8_mute_flag ⟨"s", some "A", none, [("a", ⟨1, none, "n", none⟩)]⟩ "a" "[]" "q" [2] "f" "m" []).2.2.1 _ rfl⟩,
   ⟨_, rfl, (C8_mute_flag ⟨"s", some "A", none, [("a", ⟨1, none, "n", none⟩)]⟩ "a" "[]" "q" [2] "f" "m" []).2.2.2.1 _ rfl⟩,
   ⟨_, rfl, (C8_mute_flag ⟨"s", some "A", none, [("a", ⟨1, none, "n", none⟩)]⟩ "a" "[]" "q" [2] "f" "m" []).2.2.2.2 _ rfl⟩⟩

/-- C9: an app name absent from the registry makes every operation fail with
the unchecked dereference (`TypeError`) before any request is built. -/
theorem C9_missing_app (m : Manager) (name records query : String) (ids : List Nat)
    (fn fm : String) (fb : List Char) (hmiss : lookupApp m name = none) :
    create m name records = .error .typeError
    ∧ search m name query = .error .typeError
    ∧ update m name records = .error .typeError
    ∧ destroy m name ids = .error .typeError
    ∧ upload m name fn fm fb = .error .typeError := by
  refine ⟨?_, ?_, ?_, ?_, ?_⟩ <;> simp [create, search, update, destroy, upload, hmiss]

/-- C9 witness: the empty registry rejects every operation. -/
theorem C9_missing_app_witness :
    create ⟨"s", some "A", none, []⟩ "a" "[]" = .error .typeError
    ∧ search ⟨"s", some "A", none, []⟩ "a" "q" = .error .typeError
    ∧ update ⟨"s", some "A", none, []⟩ "a" "[]" = .error .typeError
    ∧ destroy ⟨"s", some "A", none, []⟩ "a" [2] = .error .typeError
    ∧ upload ⟨"s", some "A", none, []⟩ "a" "f" "m" [] = .error .typeError :=
  C9_missing_app ⟨"s", some "A", none, []⟩ "a" "[]" "q" [2] "f" "m" [] rfl

/-- With neither a truthy session credential nor a truthy app token, header
construction throws. -/
lemma authHeader_fails (m : Manager) (token : Option String)
    (h1 : jsTruthy m.authorization = false) (h2 : jsTruthy token = false) :
    _authorizationHeader m token = .error (.jsError "Authentication Failed") := by
  unfold _authorizationHeader
  rw [h1, h2]
  rfl

/-- C1 (amended): with the session credential set (non-empty), the app token
unset and `basicAuth` unset, the header map is exactly
`{X-Cybozu-Authorization}`; with the session credential and `basicAuth` both
set and the app token unset, it is exactly
`{X-Cybozu-Authorization, Authorization: Basic {basicAuth}}`; with only the
app token set it is exactly `{X-Cybozu-API-Token}` (whatever `basicAuth`
is); with both the session credential and the app token set the map contains
both `X-Cybozu-` keys; with neither set every operation fails with
`Error("Authentication Failed")` before any request is built. -/
theorem C1_auth_modes (sub : String) (apps : List (String × AppEntry))
    (auth basic token : Option String) :
    (∀ a, auth = some a → a ≠ "" → jsTruthy token = false → jsTruthy basic = false →
      _authorizationHeader ⟨sub, auth, basic, apps⟩ token = .ok [("X-Cybozu-Authorization", a)])
    ∧ (∀ a b, auth = some a → a ≠ "" → basic = some b → b ≠ "" → jsTruthy token = false →
      _authorizationHeader ⟨sub, auth, basic, apps⟩ token
        = .ok [("X-Cybozu-Authorization", a), ("Authorization", "Basic " ++ b)])
    ∧ (∀ t, token = some t → t ≠ "" → jsTruthy auth = false →
      _authorizationHeader ⟨sub, auth, basic, apps⟩ token = .ok [("X-Cybozu-API-Token", t)])
    ∧ (∀ a t, auth = some a → a ≠ "" → token = some t → t ≠ "" →
      ∃ hs, _authorizationHeader ⟨sub, auth, basic, apps⟩ token = .ok hs
        ∧ ("X-Cybozu-Authorization", a) ∈ hs ∧ ("X-Cybozu-API-Token", t) ∈ hs)
    ∧ (jsTruthy auth = false →
      ∀ (name records query fn fm : String) (ids : List Nat) (fb : List Char) (app : AppEntry),
        lookupApp ⟨sub, auth, basic, apps⟩ name = some app → jsTruthy app.token = false →
          create ⟨sub, auth, basic, apps⟩ name records = .error (.jsError "Authentication Failed")
          ∧ search ⟨sub, auth, basic, apps⟩ name query = .error (.jsError "Authentication Failed")
          ∧ update ⟨sub, auth, basic, apps⟩ name records = .error (.jsError "Authentication Failed")
          ∧ destroy ⟨sub, auth, basic, apps⟩ name ids = .error (.jsError "Authentication Failed")
          ∧ upload ⟨sub, auth, basic, apps⟩ name fn fm fb
              = .error (.jsError "Authentication Failed")) := by
  refine ⟨?_, ?_, ?_, ?_, ?_⟩
  · rintro a rfl ha htok hb
    have hane : (a == "") = false := beq_eq_false_iff_ne.mpr ha
    unfold _authorizationHeader
    simp only [jsTruthy, hane, Bool.not_false, Bool.true_or, Bool.not_true, if_false,
      Bool.false_eq_true]
    cases token with
    | none =>
      cases basic with
      | none => simp [hane]
      | some b =>
        have : (b == "") = true := by
          simpa [jsTruthy] using hb
        simp [hane, this]
    | some t =>
      have ht : (t == "") = true := by simpa [jsTruthy] using htok
      cases basic with
      | none => simp [hane, ht]
      | some b =>
        have : (b == "") = true := by simpa [jsTruthy] using hb
        simp [hane, ht, this]
  · rintro a b rfl ha rfl hb htok
    have hane : (a == "") = false := beq_eq_false_iff_ne.mpr ha
    have hbne : (b == "") = false := beq_eq_false_iff_ne.mpr hb
    unfold _authorizationHeader
    cases token with
    | none => simp [jsTruthy, hane, hbne]
    | some t =>
      have ht : (t == "") = true := by simpa [jsTruthy] using htok
      simp [jsTruthy, hane, hbne, ht]
  · rintro t rfl ht ha
    have htne : (t == "") = false := beq_eq_false_iff_ne.mpr ht
    unfold _authorizationHeader
    cases auth with
    | none => simp [jsTruthy, htne]
    | some a =>
      have : (a == "") = true := by simpa [jsTruthy] using ha
      cases basic with
      | none => simp [jsTruthy, htne, this]
      | some b => simp [jsTruthy, htne, this]
  · rintro a t rfl ha rfl ht
    have hane : (a == "") = false := beq_eq_false_iff_ne.mpr ha
    have htne : (t == "") = false := beq_eq_false_iff_ne.mpr ht
    cases basic with
    | none =>
      have hh : _authorizationHeader ⟨sub, some a, none, apps⟩ (some t)
          = .ok [("X-Cybozu-Authorization", a), ("X-Cybozu-API-Token", t)] := by
        unfold _authorizationHeader
        simp [jsTruthy, hane, htne]
      exact ⟨_, hh, by simp, by simp⟩
    | some b =>
      by_cases hb : (b == "") = true
      · have hh : _authorizationHeader ⟨sub, some a, some b, apps⟩ (some t)
            = .ok [("X-Cybozu-Authorization", a), ("X-Cybozu-API-Token", t)] := by
          unfold _authorizationHeader
          simp [jsTruthy, hane, htne, hb]
        exact ⟨_, hh, by simp, by simp⟩
      · have hb' : (b == "") = false := by simpa using hb
        have hh : _authorizationHeader ⟨sub, some a, some b, apps⟩ (some t)
            = .ok [("X-Cybozu-Authorization", a), ("Authorization", "Basic " ++ b),
                ("X-Cybozu-API-Token", t)] := by
          unfold _authorizationHeader
          simp [jsTruthy, hane, htne, hb']
        exact ⟨_, hh, by simp, by simp⟩
  · intro ha name records query fn fm ids fb app hlook htok
    have hfail := authHeader_fails ⟨sub, auth, basic, apps⟩ app.token ha htok
    refine ⟨?_, ?_, ?_, ?_, ?_⟩
    · unfold create
      rw [hlook]
      simp only []
      unfold _postOption
      rw [hfail]
      rfl
    · unfold search
      rw [hlook]
      simp only []
      unfold _getOption
      rw [hfail]
      rfl
    · unfold update
      rw [hlook]
      simp only []
      unfold _putOption
      rw [hfail]
      rfl
    · unfold destroy
      rw [hlook]
      simp only []
      unfold _deleteOption
      rw [hfail]
      rfl
    · unfold upload
      rw [hlook]
      simp only []
      unfold _uploadOption
      rw [hfail]
      rfl

/-- C1 counterexample: a reachable client state (5-argument construction
with Basic credentials) has the session credential set and the app token
unset, yet the header map is not the singleton
`{X-Cybozu-Authorization: sessionAuth}` — it also carries `Authorization`. -/
theorem C1_counterexample :
    _authorizationHeader
        (construct "s" [] (.five (.str "u") (.str "p") (.obj (.str "bu") (.str "bp")))) none
      = .ok [("X-Cybozu-Authorization", base64Encode "u:p"),
             ("Authorization", "Basic " ++ base64Encode "bu:bp")]
    ∧ [("X-Cybozu-Authorization", base64Encode "u:p"),
       ("Authorization", "Basic " ++ base64Encode "bu:bp")]
      ≠ [("X-Cybozu-Authorization", base64Encode "u:p")] := by
  exact ⟨rfl, by decide⟩

/-- C1 witness: each amended mode at a concrete input. -/
theorem C1_auth_modes_witness :
    _authorizationHeader ⟨"s", some "A", none, []⟩ none
        = .ok [("X-Cybozu-Authorization", "A")]
    ∧ _authorizationHeader ⟨"s", some "A", some "B", []⟩ none
        = .ok [("X-Cybozu-Authorization", "A"), ("Authorization", "Basic " ++ "B")]
    ∧ _authorizationHeader ⟨"s", none, none, []⟩ (some "T")
        = .ok [("X-Cybozu-API-Token", "T")]
    ∧ (∃ hs, _authorizationHeader ⟨"s", some "A", none, []⟩ (some "T") = .ok hs
        ∧ ("X-Cybozu-Authorization", "A") ∈ hs ∧ ("X-Cybozu-API-Token", "T") ∈ hs)
    ∧ create ⟨"s", none, none, [("a", ⟨1, none, "n", none⟩)]⟩ "a" "[]"
        = .error (.jsError "Authentication Failed")
    ∧ upload ⟨"s", none, none, [("a", ⟨1, none, "n", none⟩)]⟩ "a" "f" "m" []
        = .error (.jsError "Authentication Failed") := by
  refine ⟨?_, ?_, ?_, ?_, ?_, ?_⟩
  · exact (C1_auth_modes "s" [] (some "A") none none).1 "A" rfl (by decide) rfl rfl
  · exact (C1_auth_modes "s" [] (some "A") (some "B") none).2.1 "A" "B" rfl (by decide) rfl
      (by decide) rfl
  · exact (C1_auth_modes "s" [] none none (some "T")).2.2.1 "T" rfl (by decide) rfl
  · exact (C1_auth_modes "s" [] (some "A") none (some "T")).2.2.2.1 "A" "T" rfl (by decide) rfl
      (by decide)
  · exact (((C1_auth_modes "s" [("a", ⟨1, none, "n", none⟩)] none none none).2.2.2.2 rfl
      "a" "[]" "q" "f" "m" [] [] ⟨1, none, "n", none⟩ rfl rfl)).1
  · exact (((C1_auth_modes "s" [("a", ⟨1, none, "n", none⟩)] none none none).2.2.2.2 rfl
      "a" "[]" "q" "f" "m" [] [] ⟨1, none, "n", none⟩ rfl rfl)).2.2.2.2

/-- C7: a successfully constructed header map contains an `Authorization`
key exactly when both the session credential and the Basic credential are
truthy, and then it binds `Basic {basicAuth}`; Basic auth never appears
without session auth. -/
theorem C7_basic_requires_session (sub : String) (apps : List (String × AppEntry))
    (auth basic token : Option String) (h : List (String × String))
    (hok : _authorizationHeader ⟨sub, auth, basic, apps⟩ token = .ok h) :
    (("Authorization" ∈ h.map Prod.fst) ↔ (jsTruthy auth = true ∧ jsTruthy basic = true))
    ∧ (∀ b, basic = some b → jsTruthy auth = true → b ≠ "" →
        ("Authorization", "Basic " ++ b) ∈ h) := by
  unfold _authorizationHeader at hok
  split at hok
  · exact absurd hok (by simp)
  · simp only [Except.ok.injEq] at hok
    subst hok
    constructor
    · cases auth with
      | none =>
        cases token with
        | none => cases basic <;> simp [jsTruthy]
        | some t => cases basic <;> simp only [] <;> split_ifs <;> simp_all [jsTruthy]
      | some a =>
        cases token with
        | none => cases basic <;> simp only [] <;> split_ifs <;> simp_all [jsTruthy]
        | some t => cases basic <;> simp only [] <;> split_ifs <;> simp_all [jsTruthy]
    · rintro b rfl htrue hbne
      cases auth with
      | none => simp [jsTruthy] at htrue
      | some a =>
        have hane : (a == "") = false := by simpa [jsTruthy] using htrue
        have hbne' : (b == "") = false := beq_eq_false_iff_ne.mpr hbne
        simp [hane, hbne']

/-- C7 witness: concrete credentials exercising both directions. -/
theorem C7_basic_requires_session_witness :
    (("Authorization"
        ∈ ([("X-Cybozu-Authorization", "A"), ("Authorization", "Basic " ++ "B")].map Prod.fst))
      ↔ (jsTruthy (some "A") = true ∧ jsTruthy (some "B") = true))
    ∧ ("Authorization", "Basic " ++ "B")
        ∈ [("X-Cybozu-Authorization", "A"), ("Authorization", "Basic " ++ "B")] := by
  have h := C7_basic_requires_session "s" [] (some "A") (some "B") none _ rfl
  exact ⟨h.1, h.2 "B" rfl (by decide) (by decide)⟩

/-- Eta for `String`. -/
lemma strEta (s : String) : (⟨s.data⟩ : String) = s := by
  obtain ⟨l⟩ := s
  rfl

/-- String-level form of `repAll_skip`: a replace whose pattern has no
occurrence starting inside the left part copies the left part. -/
lemma jsReplaceAll_concat (a b pat repl : String)
    (hfree : ∀ i, i < a.data.length → ¬ pat.data <+: ((a.data ++ b.data).drop i)) :
    jsReplaceAll (a ++ b) pat repl
      = a ++ (⟨repAll pat.data repl.data b.data.length b.data⟩ : String) := by
  show (⟨repAll pat.data repl.data (a ++ b).data.length (a ++ b).data⟩ : String)
    = ⟨a.data ++ repAll pat.data repl.data b.data.length b.data⟩
  refine congrArg String.mk ?_
  rw [String.data_append, List.length_append]
  have h := repAll_skip pat.data repl.data a.data b.data
    (a.data.length + b.data.length) (le_refl _) hfree
  have hl : a.data.length + b.data.length - a.data.length = b.data.length := by omega
  rw [h, hl]

/-- The replaced per-id term of `destroy`'s query string. -/
lemma ids_term (i id : Nat) :
    jsReplaceAll (jsReplaceAll "&ids[@1]=@2" "@1" (natToString i)) "@2" (natToString id)
      = "&ids[" ++ natToString i ++ "]=" ++ natToString id := by
  rw [ids_term_step1]
  have heq : ("&ids[" ++ natToString i ++ "]=@2" : String)
      = ("&ids[" ++ natToString i ++ "]=") ++ "@2" := by
    rw [String.append_assoc ("&ids[" ++ natToString i) "]=" "@2"]
    rfl
  rw [heq]
  have hnot : '@' ∉ ("&ids[" ++ natToString i ++ "]=").data := by
    rw [String.data_append, String.data_append]
    exact notMem_append (notMem_append (by decide) (natToString_no_at i)) (by decide)
  rw [jsReplaceAll_concat _ _ _ _
    (fun j hj => headFree ['2'] ("&ids[" ++ natToString i ++ "]=").data "@2".data hnot j hj)]
  have h2 : (⟨repAll "@2".data (natToString id).data ("@2".data.length) "@2".data⟩ : String)
      = natToString id := by
    show (⟨(natToString id).data ++ ([] : List Char)⟩ : String) = natToString id
    rw [List.append_nil]
  rw [h2]

/-- Modelled from the spec: the query terms `&ids[{index}]={id}`, one per
element in input order, `index` being the zero-based position. -/
def destroyTerms (k : Nat) : List Nat → String
  | [] => ""
  | id :: rest => "&ids[" ++ natToString k ++ "]=" ++ natToString id ++ destroyTerms (k + 1) rest

/-- Modelled from the spec: `app={appId}` followed by the id terms. -/
def specDestroyQuery (appid : Nat) (ids : List Nat) : String :=
  "app=" ++ natToString appid ++ destroyTerms 0 ids

/-- The `reduce` of `destroy` unrolls to the spec-side query string. -/
lemma destroyFold (ids : List Nat) : ∀ (k : Nat) (acc : String),
    (List.enumFrom k ids).foldl
      (fun prev p =>
        prev ++ jsReplaceAll (jsReplaceAll "&ids[@1]=@2" "@1" (natToString p.1)) "@2"
          (natToString p.2)) acc
      = acc ++ destroyTerms k ids := by
  induction ids with
  | nil => intro k acc; simp [destroyTerms, String.append_empty]
  | cons id rest ih =>
    intro k acc
    rw [List.enumFrom_cons]
    simp only [List.foldl_cons]
    rw [ih (k + 1) _, ids_term]
    simp [destroyTerms, String.append_assoc]

/-- A successfully built DELETE option has method `delete` and no body. -/
lemma deleteOption_shape (m : Manager) (app : AppEntry) :
    ∀ o, _deleteOption m app = .ok o → o.method = "delete" ∧ o.payload = none := by
  intro o ho
  unfold _deleteOption at ho
  rcases ha : _authorizationHeader m app.token with e | hs <;> rw [ha] at ho <;>
    simp [Except.map] at ho
  rw [← ho]
  exact ⟨rfl, rfl⟩

/-- C5: `destroy` builds `app={appId}` followed by one `&ids[{index}]={id}`
term per element in input order with positional indices, and issues it as a
DELETE on `{endpoint}/records.json?{query}` with no body; in particular
ids `[101, 102, 103]` under app id 5 give
`app=5&ids[0]=101&ids[1]=102&ids[2]=103`. -/
theorem C5_destroy_request (sub : String) (apps : List (String × AppEntry))
    (auth basic : Option String) (name : String) (app : AppEntry) (ids : List Nat)
    (hsub : '@' ∉ sub.data)
    (hlook : lookupApp ⟨sub, auth, basic, apps⟩ name = some app) :
    destroyQuery app.appid ids = specDestroyQuery app.appid ids
    ∧ (∀ req, destroy ⟨sub, auth, basic, apps⟩ name ids = .ok req →
        req.url = _getEndpoint sub app.guestid ++ "/records.json?" ++ destroyQuery app.appid ids
        ∧ req.options.method = "delete"
        ∧ req.options.payload = none)
    ∧ destroyQuery 5 [101, 102, 103] = "app=5&ids[0]=101&ids[1]=102&ids[2]=103" := by
  refine ⟨?_, ?_, by decide⟩
  · unfold destroyQuery specDestroyQuery
    exact destroyFold ids 0 _
  · intro req hok
    unfold destroy at hok
    rw [hlook] at hok
    simp only [] at hok
    rcases ho : _deleteOption ⟨sub, auth, basic, apps⟩ app with e | o <;> rw [ho] at hok <;>
      simp [Except.map] at hok
    rw [← hok]
    refine ⟨?_, (deleteOption_shape _ app o ho).1, (deleteOption_shape _ app o ho).2⟩
    show jsReplaceAll
        (jsReplaceAll "@1/records.json?@2" "@1" (_getEndpoint sub app.guestid)) "@2"
        (destroyQuery app.appid ids) = _
    rw [destroy_url_step1]
    have heq : (_getEndpoint sub app.guestid ++ "/records.json?@2")
        = (_getEndpoint sub app.guestid ++ "/records.json?") ++ "@2" := by
      rw [String.append_assoc]
      rfl
    rw [heq]
    have hnot : '@' ∉ ((_getEndpoint sub app.guestid) ++ "/records.json?").data := by
      rw [String.data_append]
      exact notMem_append (endpoint_no_at sub app.guestid hsub) (by decide)
    rw [jsReplaceAll_concat _ _ _ _ (fun j hj => headFree ['2'] _ _ hnot j hj)]
    have h2 : (⟨repAll "@2".data (destroyQuery app.appid ids).data
          ("@2".data.length) "@2".data⟩ : String)
        = destroyQuery app.appid ids := by
      show (⟨(destroyQuery app.appid ids).data ++ ([] : List Char)⟩ : String) = _
      rw [List.append_nil]
    rw [h2]

/-- C5 witness: a concrete destroy call with three ids. -/
theorem C5_destroy_request_witness :
    destroyQuery 5 [101, 102, 103] = specDestroyQuery 5 [101, 102, 103]
    ∧ (∃ req, destroy ⟨"s", some "A", none, [("a", ⟨5, none, "n", none⟩)]⟩ "a" [101, 102, 103]
        = .ok req
      ∧ req.url = _getEndpoint "s" none ++ "/records.json?" ++ destroyQuery 5 [101, 102, 103]
      ∧ req.options.method = "delete"
      ∧ req.options.payload = none) := by
  have h := C5_destroy_request "s" [("a", ⟨5, none, "n", none⟩)] (some "A") none "a"
    ⟨5, none, "n", none⟩ [101, 102, 103] (by decide) rfl
  exact ⟨h.1, ⟨_, rfl, (h.2.1 _ rfl).1, (h.2.1 _ rfl).2.1, (h.2.1 _ rfl).2.2⟩⟩

/-- Scalar values are below `0x110000`. -/
lemma char_toNat_lt (c : Char) : c.toNat < 1114112 := by
  rcases c.valid with h | ⟨h1, h2⟩ <;> · show c.val.toNat < 1114112; omega

set_option maxRecDepth 4096 in
/-- Unreserved bytes survive the encode/decode character round trip. -/
lemma unreserved_facts (b : Nat) (h : unreservedByte b = true) :
    (Char.ofNat b).toNat = b ∧ Char.ofNat b ≠ '%' := by
  have hb : b < 256 := by
    simp only [unreservedByte, Bool.or_eq_true, Bool.and_eq_true, beq_iff_eq,
      decide_eq_true_eq] at h
    omega
  exact (by decide :
    ∀ x : Fin 256, unreservedByte x.val = true →
      (Char.ofNat x.val).toNat = x.val ∧ Char.ofNat x.val ≠ '%') ⟨b, hb⟩ h

/-- Hex digit round trip. -/
lemma hex_round (n : Nat) (h : n < 16) : fromHexDigit (hexDigitChar n) = some n := by
  have := (by decide : ∀ x : Fin 16, fromHexDigit (hexDigitChar x.val) = some x.val) ⟨n, h⟩
  simpa using this

/-- Percent-decoding undoes the encoding of a single byte. -/
lemma decodeBytes_encodeByte (b : Nat) (hb : b < 256) (cs : List Char) :
    percentDecodeBytes (encodeByte b ++ cs)
      = (percentDecodeBytes cs).map (fun bs => b :: bs) := by
  unfold encodeByte
  split
  · next hu =>
    obtain ⟨htn, hne⟩ := unreserved_facts b hu
    simp only [List.singleton_append]
    conv_lhs => unfold percentDecodeBytes
    rw [if_neg hne, htn]
  · next hu =>
    simp only [List.cons_append, List.nil_append]
    conv_lhs => unfold percentDecodeBytes
    simp only [if_true]
    rw [hex_round (b / 16) (by omega), hex_round (b % 16) (by omega)]
    simp only []
    have hval : b / 16 * 16 + b % 16 = b := by omega
    rw [hval]

/-- Percent-decoding undoes the encoding of a byte sequence. -/
lemma decodeBytes_encodeList (bs : List Nat) (h : ∀ b ∈ bs, b < 256) :
    percentDecodeBytes (encodeBytesList bs) = some bs := by
  induction bs with
  | nil => rfl
  | cons b rest ih =>
    show percentDecodeBytes (encodeByte b ++ encodeBytesList rest) = _
    rw [decodeBytes_encodeByte b (h b (List.mem_cons_self b rest)) _,
      ih (fun x hx => h x (List.mem_cons_of_mem _ hx))]
    rfl

/-- UTF-8 bytes are bytes. -/
lemma utf8Bytes_lt (c : Char) : ∀ b ∈ utf8Bytes c, b < 256 := by
  intro b hb
  have hc : c.toNat < 1114112 := char_toNat_lt c
  unfold utf8Bytes at hb
  split at hb
  · simp only [List.mem_singleton] at hb; omega
  · split at hb
    · simp only [List.mem_cons, List.not_mem_nil, or_false] at hb
      rcases hb with h | h <;> omega
    · split at hb
      · simp only [List.mem_cons, List.not_mem_nil, or_false] at hb
        rcases hb with h | h | h <;> omega
      · simp only [List.mem_cons, List.not_mem_nil, or_false] at hb
        rcases hb with h | h | h | h <;> omega

/-- Every byte of `strUtf8` is a byte. -/
lemma strUtf8_lt (q : String) : ∀ b ∈ strUtf8 q, b < 256 := by
  show ∀ b ∈ q.data.foldr (fun c acc => utf8Bytes c ++ acc) [], b < 256
  induction q.data with
  | nil => simp
  | cons c rest ih =>
    intro b hb
    simp only [List.foldr_cons, List.mem_append] at hb
    rcases hb with h | h
    · exact utf8Bytes_lt c b h
    · exact ih b h

/-- UTF-8 decoding undoes the encoding of one scalar value at the head. -/
lemma utf8Decode_char (c : Char) (bs : List Nat) :
    utf8Decode (utf8Bytes c ++ bs) = (utf8Decode bs).map (fun cs => c :: cs) := by
  have hc : c.toNat < 1114112 := char_toNat_lt c
  unfold utf8Bytes
  by_cases h1 : c.toNat < 128
  · rw [if_pos h1]
    simp only [List.cons_append, List.nil_append]
    conv_lhs => unfold utf8Decode
    rw [if_pos h1, Char.ofNat_toNat]
  · rw [if_neg h1]
    by_cases h2 : c.toNat < 2048
    · rw [if_pos h2]
      simp only [List.cons_append, List.nil_append]
      conv_lhs => unfold utf8Decode
      rw [if_neg (by omega)]
      simp only []
      rw [if_pos (by omega), if_pos (by omega)]
      have hval : (192 + c.toNat / 64 - 192) * 64 + (128 + c.toNat % 64 - 128) = c.toNat := by
        omega
      rw [hval, Char.ofNat_toNat]
    · rw [if_neg h2]
      by_cases h3 : c.toNat < 65536
      · rw [if_pos h3]
        simp only [List.cons_append, List.nil_append]
        conv_lhs => unfold utf8Decode
        rw [if_neg (by omega)]
        simp only []
        rw [if_neg (by omega), if_pos (by omega), if_pos (by omega)]
        have hval : (224 + c.toNat / 4096 - 224) * 4096 + (128 + c.toNat / 64 % 64 - 128) * 64
            + (128 + c.toNat % 64 - 128) = c.toNat := by omega
        rw [hval, Char.ofNat_toNat]
      · rw [if_neg h3]
        simp only [List.cons_append, List.nil_append]
        conv_lhs => unfold utf8Decode
        rw [if_neg (by omega)]
        simp only []
        rw [if_neg (by omega), if_neg (by omega), if_pos (by omega), if_pos (by omega)]
        have hval : (240 + c.toNat / 262144 - 240) * 262144
            + (128 + c.toNat / 4096 % 64 - 128) * 4096
            + (128 + c.toNat / 64 % 64 - 128) * 64 + (128 + c.toNat % 64 - 128) = c.toNat := by
          omega
        rw [hval, Char.ofNat_toNat]

/-- UTF-8 decoding undoes `strUtf8`. -/
lemma utf8Decode_strUtf8 (l : List Char) :
    utf8Decode (l.foldr (fun c acc => utf8Bytes c ++ acc) []) = some l := by
  induction l with
  | nil => rfl
  | cons c rest ih =>
    show utf8Decode (utf8Bytes c ++ rest.foldr (fun c acc => utf8Bytes c ++ acc) []) = _
    rw [utf8Decode_char, ih]
    rfl

/-- C3 core: percent-decoding the encoded query yields the query back —
the encoding is applied exactly once and loses nothing. -/
lemma decode_encode (q : String) : jsDecodeURIComponent (jsEncodeURIComponent q) = some q := by
  unfold jsDecodeURIComponent jsEncodeURIComponent
  show (percentDecodeBytes (encodeBytesList (strUtf8 q))).bind _ = _
  rw [decodeBytes_encodeList (strUtf8 q) (strUtf8_lt q)]
  show (utf8Decode (strUtf8 q)).map String.mk = some q
  rw [show strUtf8 q = q.data.foldr (fun c acc => utf8Bytes c ++ acc) [] from rfl]
  rw [utf8Decode_strUtf8 q.data]
  rw [Option.map_some']

/-- A successfully built GET option has method `get` and no body. -/
lemma getOption_shape (m : Manager) (app : AppEntry) :
    ∀ o, _getOption m app = .ok o → o.method = "get" ∧ o.payload = none := by
  intro o ho
  unfold _getOption at ho
  rcases ha : _authorizationHeader m app.token with e | hs <;> rw [ha] at ho <;>
    simp [Except.map] at ho
  rw [← ho]
  exact ⟨rfl, rfl⟩

/-- C3: `search` issues a GET whose URL is
`{endpoint}/records.json?app={appId}&query={encoded}` with the query
percent-encoded exactly once, and percent-decoding the encoded component
yields the original query back. -/
theorem C3_search_url (sub : String) (apps : List (String × AppEntry))
    (auth basic : Option String) (name query : String) (app : AppEntry)
    (hsub : '@' ∉ sub.data)
    (hlook : lookupApp ⟨sub, auth, basic, apps⟩ name = some app) :
    (∀ req, search ⟨sub, auth, basic, apps⟩ name query = .ok req →
      req.url = _getEndpoint sub app.guestid ++ "/records.json?app=" ++ natToString app.appid
        ++ "&query=" ++ jsEncodeURIComponent query
      ∧ req.options.method = "get" ∧ req.options.payload = none)
    ∧ jsDecodeURIComponent (jsEncodeURIComponent query) = some query := by
  refine ⟨?_, decode_encode query⟩
  intro req hok
  unfold search at hok
  simp only [hlook] at hok
  rcases ho : _getOption ⟨sub, auth, basic, apps⟩ app with e | o <;> rw [ho] at hok <;>
    simp [Except.map] at hok
  rw [← hok]
  refine ⟨?_, (getOption_shape _ app o ho).1, (getOption_shape _ app o ho).2⟩
  show jsReplaceAll
      (jsReplaceAll
        (jsReplaceAll "@1/records.json?app=@2&query=@3" "@1" (_getEndpoint sub app.guestid))
        "@2" (natToString app.appid))
      "@3" (jsEncodeURIComponent query) = _
  rw [search_url_step1]
  have heq2 : (_getEndpoint sub app.guestid ++ "/records.json?app=@2&query=@3")
      = (_getEndpoint sub app.guestid ++ "/records.json?app=") ++ "@2&query=@3" := by
    rw [String.append_assoc (_getEndpoint sub app.guestid) "/records.json?app=" "@2&query=@3"]
    rfl
  rw [heq2]
  have hnotX : '@' ∉ ((_getEndpoint sub app.guestid) ++ "/records.json?app=").data := by
    rw [String.data_append]
    exact notMem_append (endpoint_no_at sub app.guestid hsub) (by decide)
  rw [jsReplaceAll_concat _ _ _ _ (fun j hj => headFree ['2'] _ _ hnotX j hj)]
  rw [show (⟨repAll "@2".data (natToString app.appid).data ("@2&query=@3".data.length)
      "@2&query=@3".data⟩ : String) = natToString app.appid ++ "&query=@3" from rfl]
  have heq3 : ((_getEndpoint sub app.guestid ++ "/records.json?app=")
        ++ (natToString app.appid ++ "&query=@3"))
      = (((_getEndpoint sub app.guestid ++ "/records.json?app=") ++ natToString app.appid)
        ++ "&query=") ++ "@3" := by
    rw [String.append_assoc
      ((_getEndpoint sub app.guestid ++ "/records.json?app=") ++ natToString app.appid)
      "&query=" "@3"]
    rw [← String.append_assoc (_getEndpoint sub app.guestid ++ "/records.json?app=")
      (natToString app.appid) "&query=@3"]
    rfl
  rw [heq3]
  have hnotA : '@' ∉ (((_getEndpoint sub app.guestid ++ "/records.json?app=")
      ++ natToString app.appid) ++ "&query=").data := by
    rw [String.data_append, String.data_append]
    exact notMem_append (notMem_append hnotX (natToString_no_at app.appid)) (by decide)
  rw [jsReplaceAll_concat _ _ _ _ (fun j hj => headFree ['3'] _ _ hnotA j hj)]
  have h4 : (⟨repAll "@3".data (jsEncodeURIComponent query).data ("@3".data.length)
      "@3".data⟩ : String) = jsEncodeURIComponent query := by
    show (⟨(jsEncodeURIComponent query).data ++ ([] : List Char)⟩ : String) = _
    rw [List.append_nil]
  rw [h4]

/-- C3 witness: the spec's example query `Status = "Open"`. -/
theorem C3_search_url_witness :
    (∃ req, search ⟨"s", some "A", none, [("a", ⟨5, none, "n", none⟩)]⟩ "a" "Status = \"Open\""
      = .ok req
      ∧ req.url = _getEndpoint "s" none ++ "/records.json?app=" ++ natToString 5
        ++ "&query=" ++ jsEncodeURIComponent "Status = \"Open\""
      ∧ req.options.method = "get" ∧ req.options.payload = none)
    ∧ jsDecodeURIComponent (jsEncodeURIComponent "Status = \"Open\"")
      = some "Status = \"Open\"" := by
  have h := C3_search_url "s" [("a", ⟨5, none, "n", none⟩)] (some "A") none "a"
    "Status = \"Open\"" ⟨5, none, "n", none⟩ (by decide) rfl
  exact ⟨⟨_, rfl, (h.1 _ rfl).1, (h.1 _ rfl).2.1, (h.1 _ rfl).2.2⟩, h.2⟩

/-- The part-content delimiter `CRLF--{boundary}` of the upload body. -/
def crlfBoundary : List Char := '\r' :: '\n' :: ("--" ++ uploadBoundary).data

/-- The delimiter has no occurrence starting inside delimiter-free content:
it has no nontrivial border, so no occurrence can straddle the junction. -/
lemma crlf_free (b r : List Char) (hb : ¬ crlfBoundary <:+: b) :
    ∀ i, i < b.length → ¬ crlfBoundary <+: ((b ++ (crlfBoundary ++ r)).drop i) := by
  intro i hi hpre
  rw [List.drop_append_of_le_length (Nat.le_of_lt hi)] at hpre
  obtain ⟨t, ht⟩ := hpre
  have hdl : crlfBoundary.length = 8 := rfl
  have hbl : (b.drop i).length = b.length - i := by simp
  by_cases hk8 : 8 ≤ b.length - i
  · have h1 : (crlfBoundary ++ t).take 8 = crlfBoundary := by
      rw [List.take_append_of_le_length (by rw [hdl])]
      exact List.take_of_length_le (by rw [hdl])
    have h2 : (b.drop i ++ (crlfBoundary ++ r)).take 8 = (b.drop i).take 8 :=
      List.take_append_of_le_length (by rw [hbl]; omega)
    have h3 : crlfBoundary = (b.drop i).take 8 := by rw [← h1, ht, h2]
    apply hb
    refine ⟨b.take i, (b.drop i).drop 8, ?_⟩
    rw [h3, List.append_assoc, List.take_append_drop, List.take_append_drop]
  · set k := b.length - i with hkdef
    have hk1 : 1 ≤ k := by omega
    have hk7 : k < 8 := by omega
    have h2 : crlfBoundary.drop k ++ t = crlfBoundary ++ r := by
      have hd := congrArg (List.drop k) ht
      rw [List.drop_append_of_le_length (show k ≤ crlfBoundary.length by omega)] at hd
      rw [List.drop_append_of_le_length (show k ≤ (List.drop i b).length by omega)] at hd
      rw [List.drop_eq_nil_of_le (show (List.drop i b).length ≤ k by omega)] at hd
      rw [List.nil_append] at hd
      exact hd
    have h3 : crlfBoundary.take (8 - k) = crlfBoundary.drop k := by
      have hdk : (crlfBoundary.drop k).length = 8 - k := by simp [hdl]
      have htk := congrArg (List.take (8 - k)) h2
      rw [List.take_append_of_le_length (by rw [hdk]),
        List.take_append_of_le_length (by rw [hdl]; omega),
        List.take_of_length_le (by rw [hdk])] at htk
      exact htk.symm
    exact absurd h3
      ((by decide :
        ∀ k : Fin 8, 1 ≤ k.val → crlfBoundary.take (8 - k.val) ≠ crlfBoundary.drop k.val)
        ⟨k, hk7⟩ hk1)

/-- `readLine` on a line with no LF followed by LF and the rest. -/
lemma readLine_split (a z : List Char) (ha : '\n' ∉ a) :
    readLine (a ++ (['\n'] ++ z)) = some (stripCR a, z) := by
  unfold readLine
  rw [splitFirst_at ['\n'] a z (by simp) (headFree [] a (['\n'] ++ z) ha)]
  rfl

/-- One non-terminal part of `parsePartsF`, fully determined by its
sub-results. -/
lemma parsePartsF_step (dash : List Char) (fuel : Nat) (s rest body content after : List Char)
    (hdrs : List (List Char)) (part : MPart)
    (hns : isPre "--".data s = false)
    (hrl : readLine s = some ([], rest))
    (hph : parseHeadersF (rest.length + 1) rest = some (hdrs, body))
    (hsp : splitFirst ('\r' :: '\n' :: dash) body = some (content, after))
    (hpf : partFromHeaders hdrs content = some part) :
    parsePartsF dash (fuel + 1) s = (parsePartsF dash fuel after).map (fun ps => part :: ps) := by
  conv_lhs => unfold parsePartsF
  rw [if_neg (by simp [hns])]
  simp only []
  rw [hrl]
  simp only []
  simp only [if_true]
  rw [hph]
  simp only []
  rw [hsp]
  simp only []
  rw [hpf]

/-- The closing `--` ends the part list. -/
lemma parsePartsF_end (dash : List Char) (fuel : Nat) (s : List Char)
    (h : isPre "--".data s = true) :
    parsePartsF dash fuel s = some [] := by
  conv_lhs => unfold parsePartsF
  rw [if_pos h]

/-- One non-blank header line. -/
lemma parseHeadersF_line (fuel : Nat) (s line rest : List Char)
    (hrl : readLine s = some (line, rest)) (hne : line ≠ []) :
    parseHeadersF (fuel + 1) s
      = (parseHeadersF fuel rest).map (fun p => (line :: p.1, p.2)) := by
  conv_lhs => unfold parseHeadersF
  rw [hrl]
  simp only []
  rw [if_neg hne]

/-- The blank line ends the headers. -/
lemma parseHeadersF_blank (fuel : Nat) (s rest : List Char)
    (hrl : readLine s = some ([], rest)) :
    parseHeadersF fuel s = some ([], rest) := by
  conv_lhs => unfold parseHeadersF
  rw [hrl]
  simp only [if_true]

/-- Modelled from the spec: the header text of the single part — the bytes
the body carries before the CRLFCRLF separator. -/
def specUploadHeaderText (n m : String) : String :=
  "--blob\nContent-Disposition: form-data; name=\"file\"; filename=\"" ++ n
    ++ "\"\nContent-Type:" ++ m

/-- C2 (amended): the upload body is exactly header text + CRLFCRLF + file
bytes + CRLF + closing boundary marker, and — provided the file name holds
no LF or double quote, the MIME type no LF, and the file bytes do not
contain the delimiter bytes `CRLF--blob` — parsing it as multipart/form-data
with boundary `blob` yields exactly one part named `file` with that
filename, content type and content. -/
theorem C2_upload_multipart (n m : String) (b : List Char)
    (hn1 : '\n' ∉ n.data) (hnq : dquote ∉ n.data)
    (hm1 : '\n' ∉ m.data)
    (hb : ¬ crlfBoundary <:+: b) :
    uploadPayload n m b
      = (specUploadHeaderText n m).data
        ++ ("\r\n\r\n".data ++ (b ++ ("\r\n".data ++ "--blob--".data)))
    ∧ parseMultipart uploadBoundary (uploadPayload n m b)
      = some [(⟨"file", n, m, b⟩ : MPart)] := by
  constructor
  · unfold uploadPayload uploadData uploadBoundary specUploadHeaderText
    simp only [String.data_append, List.append_assoc]
    rfl
  · have hflat : uploadPayload n m b
        = "--blob\nContent-Disposition: form-data; name=\"file\"; filename=\"".data
          ++ (n.data ++ ("\"\nContent-Type:".data
          ++ (m.data ++ ("\r\n\r\n".data ++ (b ++ "\r\n--blob--".data))))) := by
      unfold uploadPayload uploadData uploadBoundary
      simp only [String.data_append, List.append_assoc]
      rfl
    -- the Content-Disposition and Content-Type header lines
    have hst1 : stripCR (("Content-Disposition: form-data; name=\"file\"; filename=\"".data ++ n.data) ++ [dquote]) = (("Content-Disposition: form-data; name=\"file\"; filename=\"".data ++ n.data) ++ [dquote]) := by
      unfold stripCR
      rw [List.getLast?_concat]
      simp [dquote]
    have hst2 : stripCR (("Content-Type:".data ++ m.data) ++ ['\r']) = ("Content-Type:".data ++ m.data) := by
      unfold stripCR
      rw [List.getLast?_concat, if_pos rfl]
      exact List.dropLast_concat
    have hfree1 : '\n' ∉ (("Content-Disposition: form-data; name=\"file\"; filename=\"".data ++ n.data) ++ [dquote]) := by
      refine notMem_append (notMem_append ?_ hn1) ?_
      · decide
      · simp [dquote]
    have hfree2 : '\n' ∉ (("Content-Type:".data ++ m.data) ++ ['\r']) := by
      refine notMem_append (notMem_append ?_ hm1) ?_
      · decide
      · decide
    have hcut1 : ("Content-Disposition: form-data; name=\"file\"; filename=\"".data ++ (n.data ++ ("\"\nContent-Type:".data ++ (m.data ++ ("\r\n\r\n".data ++ (b ++ "\r\n--blob--".data)))))) = (("Content-Disposition: form-data; name=\"file\"; filename=\"".data ++ n.data) ++ [dquote]) ++ (['\n'] ++ ("Content-Type:".data ++ (m.data ++ ("\r\n\r\n".data ++ (b ++ "\r\n--blob--".data))))) := by
      simp only [List.append_assoc]
      rfl
    have hcut2 : ("Content-Type:".data ++ (m.data ++ ("\r\n\r\n".data ++ (b ++ "\r\n--blob--".data)))) = (("Content-Type:".data ++ m.data) ++ ['\r']) ++ (['\n'] ++ ('\r' :: '\n' :: (b ++ "\r\n--blob--".data))) := by
      simp only [List.append_assoc]
      rfl
    have hrl3 : readLine ('\r' :: '\n' :: (b ++ "\r\n--blob--".data)) = some ([], (b ++ "\r\n--blob--".data)) := rfl
    -- headers
    have hph : parseHeadersF (("Content-Disposition: form-data; name=\"file\"; filename=\"".data ++ (n.data ++ ("\"\nContent-Type:".data ++ (m.data ++ ("\r\n\r\n".data ++ (b ++ "\r\n--blob--".data)))))).length + 1) ("Content-Disposition: form-data; name=\"file\"; filename=\"".data ++ (n.data ++ ("\"\nContent-Type:".data ++ (m.data ++ ("\r\n\r\n".data ++ (b ++ "\r\n--blob--".data))))))
        = some ([(("Content-Disposition: form-data; name=\"file\"; filename=\"".data ++ n.data) ++ [dquote]), ("Content-Type:".data ++ m.data)], (b ++ "\r\n--blob--".data)) := by
      rw [hcut1]
      rw [parseHeadersF_line ((("Content-Disposition: form-data; name=\"file\"; filename=\"".data ++ n.data) ++ [dquote]) ++ (['\n'] ++ ("Content-Type:".data ++ (m.data ++ ("\r\n\r\n".data ++ (b ++ "\r\n--blob--".data)))))).length
        ((("Content-Disposition: form-data; name=\"file\"; filename=\"".data ++ n.data) ++ [dquote]) ++ (['\n'] ++ ("Content-Type:".data ++ (m.data ++ ("\r\n\r\n".data ++ (b ++ "\r\n--blob--".data)))))) (("Content-Disposition: form-data; name=\"file\"; filename=\"".data ++ n.data) ++ [dquote]) ("Content-Type:".data ++ (m.data ++ ("\r\n\r\n".data ++ (b ++ "\r\n--blob--".data))))
        (by rw [readLine_split (("Content-Disposition: form-data; name=\"file\"; filename=\"".data ++ n.data) ++ [dquote]) ("Content-Type:".data ++ (m.data ++ ("\r\n\r\n".data ++ (b ++ "\r\n--blob--".data)))) hfree1, hst1]) (by simp)]
      have hlen1 : ((("Content-Disposition: form-data; name=\"file\"; filename=\"".data ++ n.data) ++ [dquote]) ++ (['\n'] ++ ("Content-Type:".data ++ (m.data ++ ("\r\n\r\n".data ++ (b ++ "\r\n--blob--".data)))))).length
          = ((("Content-Disposition: form-data; name=\"file\"; filename=\"".data ++ n.data) ++ [dquote]).length + ("Content-Type:".data ++ (m.data ++ ("\r\n\r\n".data ++ (b ++ "\r\n--blob--".data)))).length) + 1 := by
        simp only [List.length_append, List.length_cons, List.length_nil]
        omega
      rw [hlen1, hcut2]
      rw [parseHeadersF_line ((("Content-Disposition: form-data; name=\"file\"; filename=\"".data ++ n.data) ++ [dquote]).length + ((("Content-Type:".data ++ m.data) ++ ['\r']) ++ (['\n'] ++ ('\r' :: '\n' :: (b ++ "\r\n--blob--".data)))).length)
        ((("Content-Type:".data ++ m.data) ++ ['\r']) ++ (['\n'] ++ ('\r' :: '\n' :: (b ++ "\r\n--blob--".data)))) ("Content-Type:".data ++ m.data) ('\r' :: '\n' :: (b ++ "\r\n--blob--".data))
        (by rw [readLine_split (("Content-Type:".data ++ m.data) ++ ['\r']) ('\r' :: '\n' :: (b ++ "\r\n--blob--".data)) hfree2, hst2]) (by simp)]
      rw [parseHeadersF_blank _ ('\r' :: '\n' :: (b ++ "\r\n--blob--".data)) (b ++ "\r\n--blob--".data) hrl3]
      rfl
    -- content split at the delimiter
    have hsp : splitFirst ('\r' :: '\n' :: ("--" ++ uploadBoundary).data) (b ++ "\r\n--blob--".data) = some (b, "--".data) := by
      have hT : (b ++ "\r\n--blob--".data) = b ++ (crlfBoundary ++ "--".data) := rfl
      rw [hT]
      exact splitFirst_at crlfBoundary b "--".data (by decide) (crlf_free b "--".data hb)
    -- the part extracted from the headers
    have hpf : partFromHeaders [(("Content-Disposition: form-data; name=\"file\"; filename=\"".data ++ n.data) ++ [dquote]), ("Content-Type:".data ++ m.data)] b = some (⟨"file", n, m, b⟩ : MPart) := by
      unfold partFromHeaders
      have hd1 : (isPre "Content-Disposition:".data (("Content-Disposition: form-data; name=\"file\"; filename=\"".data ++ n.data) ++ [dquote])) = true := rfl
      have hc1 : (isPre "Content-Type:".data (("Content-Disposition: form-data; name=\"file\"; filename=\"".data ++ n.data) ++ [dquote])) = false := rfl
      have hc2 : (isPre "Content-Type:".data ("Content-Type:".data ++ m.data)) = true := rfl
      rw [show List.find? (fun l => isPre "Content-Disposition:".data l)
          [(("Content-Disposition: form-data; name=\"file\"; filename=\"".data ++ n.data) ++ [dquote]), ("Content-Type:".data ++ m.data)] = some (("Content-Disposition: form-data; name=\"file\"; filename=\"".data ++ n.data) ++ [dquote]) from List.find?_cons_of_pos _ hd1]
      simp only []
      have hnm : (findAfter ("name=".data ++ [dquote]) (("Content-Disposition: form-data; name=\"file\"; filename=\"".data ++ n.data) ++ [dquote])).bind quotedVal
          = some "file".data := rfl
      have h8 : findAfter ("filename=".data ++ [dquote]) (("Content-Disposition: form-data; name=\"file\"; filename=\"".data ++ n.data) ++ [dquote])
          = some (n.data ++ [dquote]) := rfl
      have hfn : (findAfter ("filename=".data ++ [dquote]) (("Content-Disposition: form-data; name=\"file\"; filename=\"".data ++ n.data) ++ [dquote])).bind quotedVal
          = some n.data := by
        rw [h8]
        show (splitFirst [dquote] (n.data ++ [dquote])).map (fun p => p.1) = some n.data
        rw [show n.data ++ [dquote] = n.data ++ ([dquote] ++ []) from by simp,
          splitFirst_at [dquote] n.data [] (by simp)
            (headFree [] n.data ([dquote] ++ []) hnq)]
        rfl
      rw [hnm, hfn]
      rw [show List.find? (fun l => isPre "Content-Type:".data l)
          [(("Content-Disposition: form-data; name=\"file\"; filename=\"".data ++ n.data) ++ [dquote]), ("Content-Type:".data ++ m.data)] = some ("Content-Type:".data ++ m.data) from by rw [List.find?_cons_of_neg _ (by rw [hc1]; exact Bool.false_ne_true),
            List.find?_cons_of_pos _ hc2]]
      simp only []
      rw [show ("Content-Type:".data ++ m.data).drop "Content-Type:".data.length = m.data from
        List.drop_left "Content-Type:".data m.data]
    -- assemble the parse
    unfold parseMultipart
    have hpre0 : isPre ("--" ++ uploadBoundary).data (uploadPayload n m b) = true := rfl
    simp only [hpre0, if_true]
    have hdrop : (uploadPayload n m b).drop ((("--" ++ uploadBoundary).data).length)
        = '\n' :: ("Content-Disposition: form-data; name=\"file\"; filename=\"".data ++ (n.data ++ ("\"\nContent-Type:".data ++ (m.data ++ ("\r\n\r\n".data ++ (b ++ "\r\n--blob--".data)))))) := by
      rw [hflat]
      rw [List.drop_append_of_le_length (by decide)]
      rfl
    rw [hdrop]
    rw [parsePartsF_step ("--" ++ uploadBoundary).data ((uploadPayload n m b).length)
      ('\n' :: ("Content-Disposition: form-data; name=\"file\"; filename=\"".data ++ (n.data ++ ("\"\nContent-Type:".data ++ (m.data ++ ("\r\n\r\n".data ++ (b ++ "\r\n--blob--".data))))))) ("Content-Disposition: form-data; name=\"file\"; filename=\"".data ++ (n.data ++ ("\"\nContent-Type:".data ++ (m.data ++ ("\r\n\r\n".data ++ (b ++ "\r\n--blob--".data)))))) (b ++ "\r\n--blob--".data) b "--".data
      [(("Content-Disposition: form-data; name=\"file\"; filename=\"".data ++ n.data) ++ [dquote]), ("Content-Type:".data ++ m.data)] (⟨"file", n, m, b⟩ : MPart) rfl rfl hph hsp hpf]
    rw [parsePartsF_end ("--" ++ uploadBoundary).data ((uploadPayload n m b).length) "--".data rfl]
    rfl

/-- C2 counterexample: for file bytes that themselves contain the delimiter
`CRLF--blob`, the assembled payload no longer parses back to the single
part with those bytes (the fixed boundary is not escaped), refuting the
claim for arbitrary byte content. -/
theorem C2_upload_multipart_counterexample :
    parseMultipart uploadBoundary
        (uploadPayload "a.png" "image/png" "\r\n--blob".data)
      ≠ some [⟨"file", "a.png", "image/png", "\r\n--blob".data⟩] := by
  decide

/-- C2 witness: the spec's example — name `a.png`, MIME `image/png`, bytes
`0x89 0x50` — round-trips through the multipart parser. -/
theorem C2_upload_multipart_witness :
    uploadPayload "a.png" "image/png" [Char.ofNat 0x89, Char.ofNat 0x50]
      = (specUploadHeaderText "a.png" "image/png").data
        ++ ("\r\n\r\n".data ++ ([Char.ofNat 0x89, Char.ofNat 0x50]
          ++ ("\r\n".data ++ "--blob--".data)))
    ∧ parseMultipart uploadBoundary
        (uploadPayload "a.png" "image/png" [Char.ofNat 0x89, Char.ofNat 0x50])
      = some [⟨"file", "a.png", "image/png", [Char.ofNat 0x89, Char.ofNat 0x50]⟩] :=
  C2_upload_multipart "a.png" "image/png" [Char.ofNat 0x89, Char.ofNat 0x50]
    (by decide) (by decide) (by decide) (by decide)
